import Mathlib

/-!
# Shallow embedding of dockrun (src/dockrun.go)

dockrun wraps an external `docker` command-line runtime: it starts a
container detached (`docker run -d`), races a background `docker wait`
against incoming termination signals (forwarding them as `docker stop` /
`docker kill`), recovers the exit code with one synchronous fallback wait,
prints the container logs, removes the container, and exits with the
workload's exit code.

The external runtime is modelled as an environment (`Env`) that supplies the
`cmdResult` of each external invocation, and the select loop's
nondeterministic interleaving of signals and wait completion as a list of
`Event`s.  The program itself is embedded as pure functions producing a
trace of external invocations, the list of strings printed to standard
output, and the final outcome.

Go standard-library primitives used by the source (`strings.Trim`,
`strings.Contains`, `strconv.Atoi`, and `fmt.Printf` applied to a format
string with no arguments) are modelled character-for-character from their
documented behaviour on the inputs the program feeds them.
-/

/-- The result of one external command invocation: combined output text,
numeric exit status, and an optional error (Go's `error` value modelled as
`Option String`).  Mirrors `type cmdResult struct` of src/dockrun.go. -/
structure CmdResult where
  output : String
  exitCode : Int
  err : Option String
deriving DecidableEq, Repr

/-- The Go `error` returned by `exec.Cmd.CombinedOutput`: either an
`*exec.ExitError` carrying a process wait status, or any other error
(e.g. the command could not be started). -/
inductive GoError where
  | exitError (status : Int)
  | other (msg : String)
deriving DecidableEq, Repr

/-- `getExitCode` of src/dockrun.go: extracts the process exit status from
an `*exec.ExitError`; for any other error it returns 0 together with the
error "failed to get exit code".  (On the source's platform the inner
`Sys().(syscall.WaitStatus)` assertion always succeeds for an
`*exec.ExitError`, and its guard re-reads the always-true `ok` of the outer
assertion, so that branch is unconditional.) -/
def getExitCode : GoError → Int × Option String
  | GoError.exitError s => (s, none)
  | GoError.other _ => (0, some "failed to get exit code")

/-- `runCommandWithOutput` of src/dockrun.go, with the raw result of
`cmd.CombinedOutput()` (output text and optional Go error) supplied by the
environment: exit code 0 when there is no error, the extracted status when
the error is an `*exec.ExitError`, and the sentinel 127 when no status can
be extracted.  The original error is returned unchanged. -/
def runCommandWithOutput (out : String) (cmdErr : Option GoError) :
    String × Int × Option GoError :=
  match cmdErr with
  | none => (out, 0, none)
  | some e =>
    match getExitCode e with
    | (code, none) => (out, code, some e)
    | (_, some _) => (out, 127, some e)

/-- Go `strings.Trim(s, "\n")`: remove all leading and trailing newline
characters (the cutset is the single character U+000A). -/
def goTrimNewlines (s : String) : String :=
  String.mk (((s.toList.dropWhile (fun c => c == '\n')).reverse.dropWhile
    (fun c => c == '\n')).reverse)

/-- Does the character list `l` start with `p`?  (Helper for the model of
Go `strings.Contains`.) -/
def startsWithChars : List Char → List Char → Bool
  | _, [] => true
  | [], _ :: _ => false
  | c :: cs, d :: ds => c == d && startsWithChars cs ds

/-- Does the character list contain `sub` as a contiguous sublist? -/
def containsChars (sub : List Char) : List Char → Bool
  | [] => sub.isEmpty
  | c :: cs => startsWithChars (c :: cs) sub || containsChars sub cs

/-- Go `strings.Contains(s, sub)`. -/
def goContains (s sub : String) : Bool :=
  containsChars sub.toList s.toList

/-- Digit accumulator for `goAtoi`. -/
def digitsToNat (ds : List Char) : Nat :=
  ds.foldl (fun acc c => acc * 10 + (c.toNat - '0'.toNat)) 0

/-- Go `strconv.Atoi(s)`: an optional single sign followed by one or more
ASCII digits, rejected when empty, malformed, or out of the 64-bit signed
integer range (Go returns a non-nil error in each of those cases, modelled
as `none`). -/
def goAtoi (s : String) : Option Int :=
  let chars := s.toList
  let signed : Int × List Char :=
    match chars with
    | '+' :: rest => (1, rest)
    | '-' :: rest => (-1, rest)
    | _ => (1, chars)
  let sign := signed.1
  let digits := signed.2
  if digits.isEmpty then none
  else if digits.all Char.isDigit then
    let v : Int := sign * (digitsToNat digits : Int)
    if v < -(2 ^ 63) || 2 ^ 63 - 1 < v then none else some v
  else none

/-- Go `fmt.Printf(format)` called with a format string and NO further
arguments, on character lists: ordinary characters pass through, `%%`
prints `%`, a `%` followed by a verb character prints
`%!<verb>(MISSING)` because no argument is supplied, and a trailing lone
`%` prints `%!(NOVERB)`.  (Flag/width prefixes never occur in the inputs
this program produces, so they are not modelled.) -/
def goFormatNoArgsChars : List Char → List Char
  | [] => []
  | ['%'] => "%!(NOVERB)".toList
  | '%' :: '%' :: rest => '%' :: goFormatNoArgsChars rest
  | '%' :: c :: rest =>
      '%' :: '!' :: c :: ("(MISSING)".toList ++ goFormatNoArgsChars rest)
  | c :: rest => c :: goFormatNoArgsChars rest

/-- What `fmt.Printf(s)` (no further arguments) actually writes. -/
def goFormatNoArgs (s : String) : String :=
  String.mk (goFormatNoArgsChars s.toList)

/-- How Go's `%s` renders the optional error when it is printed:
`%!s(<nil>)` for a nil error, the message otherwise. -/
def errText : Option String → String
  | some m => m
  | none => "%!s(<nil>)"

/-- The two host termination signal kinds the program registers
(`signal.Notify(signals, os.Interrupt, os.Kill)`); no other signal kind is
ever delivered on the channel. -/
inductive Sig where
  | interrupt
  | kill
deriving DecidableEq, Repr

/-- How Go renders the signal value in the diagnostic messages. -/
def sigName : Sig → String
  | Sig.interrupt => "interrupt"
  | Sig.kill => "killed"

/-- One step of the select loop of `waitForResult`: either a termination
signal becomes ready (carrying the environment's result for the
`docker stop` / `docker kill` invocation the loop will issue), or the
background wait's result channel becomes ready with its `cmdResult`. -/
inductive Event where
  | signal (s : Sig) (ctlRes : CmdResult)
  | waitDone (res : CmdResult)
deriving DecidableEq, Repr

/-- One external `docker` invocation, tagged with its subcommand and the
container identifier it targets. -/
inductive Invocation where
  | run (args : List String)
  | wait (id : String)
  | stop (id : String)
  | kill (id : String)
  | logs (id : String)
  | rm (id : String)
deriving DecidableEq, Repr

/-- The control invocation a signal triggers: interrupt maps to
`docker stop`, kill maps to `docker kill` (the `action` switch of
`waitForResult`). -/
def sigActionInv (s : Sig) (cid : String) : Invocation :=
  match s with
  | Sig.interrupt => Invocation.stop cid
  | Sig.kill => Invocation.kill cid

/-- What a run of the select loop produces: the control invocations it
issued, what it printed, and the `cmdResult` it returned (`none` when the
event list is exhausted without the wait ever completing, i.e. the loop
blocks forever). -/
structure LoopResult where
  trace : List Invocation
  stdout : List String
  result : Option CmdResult
deriving DecidableEq, Repr

/-- `waitForResult` of src/dockrun.go: loop selecting between the signal
channel and the wait-result channel.  A signal triggers one stop/kill
invocation (whose outcome the environment supplies in the event); if that
invocation errors or its output contains "Error" a diagnostic is printed
and the loop continues regardless; a wait result terminates the loop and
is returned. -/
def waitForResult (cid : String) : List Event → LoopResult
  | [] => ⟨[], [], none⟩
  | Event.signal s ctl :: rest =>
    let r := waitForResult cid rest
    ⟨sigActionInv s cid :: r.trace,
     ("Received signal: " ++ sigName s ++ "; cleaning up\n") ::
       ((if ctl.err.isSome || goContains ctl.output "Error" then
           ["stopping container via signal " ++ sigName s ++ " failed\n"]
         else []) ++ r.stdout),
     r.result⟩
  | Event.waitDone w :: _ => ⟨[], [], some w⟩

/-- The `cmdResult` the first ready wait completion carries, if any. -/
def firstDone : List Event → Option CmdResult
  | [] => none
  | Event.signal _ _ :: rest => firstDone rest
  | Event.waitDone w :: _ => some w

/-- The signals delivered before the wait completes. -/
def sigsBefore : List Event → List Sig
  | [] => []
  | Event.signal s _ :: rest => s :: sigsBefore rest
  | Event.waitDone _ :: _ => []

/-- The per-argument error lines of `validateArgs`. -/
def flagMsgs (v : String) : List String :=
  (if v = "-i" then ["ERROR: dockrun doesn\x27t support -i\n"] else []) ++
  (if v = "-a" then ["ERROR: dockrun doesn\x27t support -a"] else [])

/-- `validateArgs` of src/dockrun.go: whether validation failed (empty
argument vector, or any occurrence of "-i" or "-a"), together with
everything it printed. -/
def validateArgs (args : List String) : Bool × List String :=
  ((args.length < 1 : Bool) || args.any (fun v => v == "-i") ||
     args.any (fun v => v == "-a"),
   (if args.length < 1 then
      ["dockrun [OPTIONS] IMAGE [COMMAND]\n\n",
       "OPTIONS - same options as docker run, without -a & -i\n"]
    else []) ++ (args.map flagMsgs).flatten)

/-- The environment: the external runtime's responses to each invocation
the program can make, and the interleaving of signals with the background
wait's completion. -/
structure Env where
  runRes : CmdResult
  events : List Event
  fallbackWaitRes : CmdResult
  logsRes : CmdResult
  rmRes : CmdResult
deriving Repr

/-- Lines 132-140 of src/dockrun.go: if the primary wait result carries an
error, the fallback wait's output and error replace it (its exit code is
discarded); otherwise the primary output and error are kept. -/
def resolveWait (primary fallback : CmdResult) : String × Option String :=
  if primary.err.isSome then (fallback.output, fallback.err)
  else (primary.output, primary.err)

/-- Lines 143-155 of src/dockrun.go condensed to the value they produce:
`none` when the resolved wait outcome still errs, contains "Error", or its
newline-trimmed output fails to parse as a base-10 integer; otherwise the
parsed integer. -/
def extractExitCode (resolved : String × Option String) : Option Int :=
  if resolved.2.isSome || goContains resolved.1 "Error" then none
  else goAtoi (goTrimNewlines resolved.1)

/-- What a whole run of the coordinator produces. -/
inductive MainOutcome where
  | blocked
  | exited (code : Int)
deriving DecidableEq, Repr

/-- Trace, printed output, and outcome of one run. -/
structure RunResult where
  trace : List Invocation
  stdout : List String
  outcome : MainOutcome
deriving DecidableEq, Repr

/-- Lines 124-173 of src/dockrun.go, from the moment the container id is
known: launch the background wait, run the select loop, apply the fallback
wait on error, extract the exit code (fatal on failure), fetch and print
the logs (non-fatally; the output is passed to `fmt.Printf` as a format
string), remove the container (non-fatally), and exit with the extracted
code. -/
def waitPhase (cid : String) (env : Env) : RunResult :=
  let loop := waitForResult cid env.events
  match loop.result with
  | none => ⟨Invocation.wait cid :: loop.trace, loop.stdout, MainOutcome.blocked⟩
  | some w =>
    let resolved := resolveWait w env.fallbackWaitRes
    let extraWait := if w.err.isSome then [Invocation.wait cid] else []
    if resolved.2.isSome || goContains resolved.1 "Error" then
      ⟨Invocation.wait cid :: loop.trace ++ extraWait,
       loop.stdout ++
         ["ERROR: docker wait: " ++ resolved.1 ++ " " ++ errText resolved.2 ++ "\n",
          "ERROR: docker wait failed\n"],
       MainOutcome.exited 1⟩
    else
      match goAtoi (goTrimNewlines resolved.1) with
      | none =>
        ⟨Invocation.wait cid :: loop.trace ++ extraWait,
         loop.stdout ++
           [goTrimNewlines resolved.1 ++ "\n",
            "ERROR: failed to convert exit code to int\n"],
         MainOutcome.exited 1⟩
      | some n =>
        ⟨Invocation.wait cid :: loop.trace ++ extraWait ++
           [Invocation.logs cid, Invocation.rm cid],
         loop.stdout ++
           (if env.logsRes.err.isSome ||
               goContains env.logsRes.output "No such container" then
              ["ERROR: docker logs: " ++ env.logsRes.output ++ " " ++
                 errText env.logsRes.err ++ "\n",
               "ERROR: docker logs failed\n"]
            else [goFormatNoArgs env.logsRes.output]) ++
           (if env.rmRes.err.isSome || goContains env.rmRes.output "Error" then
              ["ERROR: docker rm: " ++ env.rmRes.output ++ " " ++
                 errText env.rmRes.err ++ "\n",
               "ERROR: docker rm failed\n"]
            else []),
         MainOutcome.exited n⟩

/-- The argument vector `docker` is invoked with at launch:
`run -d` prepended to the validated arguments. -/
def dockerRunArgs (args : List String) : List String :=
  ["run", "-d"] ++ args

/-- `main` of src/dockrun.go: validate the arguments (exit 1 on failure,
before any external invocation), launch the container (exit 1 when the
launch invocation errors), trim the output to the container id (exit 1
when it is shorter than 4 characters), then enter the wait phase. -/
def mainModel (args : List String) (env : Env) : RunResult :=
  if (validateArgs args).1 then
    ⟨[], (validateArgs args).2, MainOutcome.exited 1⟩
  else if env.runRes.err.isSome then
    ⟨[Invocation.run (dockerRunArgs args)],
     ["docker run: " ++ env.runRes.output,
      "ERROR docker exited with exit code: " ++ toString env.runRes.exitCode ++ "\n"],
     MainOutcome.exited 1⟩
  else if (goTrimNewlines env.runRes.output).length < 4 then
    ⟨[Invocation.run (dockerRunArgs args)],
     ["ERROR: docker container ID is too small, possibly invalid"],
     MainOutcome.exited 1⟩
  else
    let w := waitPhase (goTrimNewlines env.runRes.output) env
    ⟨Invocation.run (dockerRunArgs args) :: w.trace, w.stdout, w.outcome⟩

/-- How many times invocation `i` occurs in a trace. -/
def countInv (i : Invocation) : List Invocation → Nat
  | [] => 0
  | j :: rest => (if j = i then 1 else 0) + countInv i rest

/-- The container id an invocation targets (`none` for the launch). -/
def invId : Invocation → Option String
  | Invocation.run _ => none
  | Invocation.wait i => some i
  | Invocation.stop i => some i
  | Invocation.kill i => some i
  | Invocation.logs i => some i
  | Invocation.rm i => some i

/-- Modelled from the spec\x27s words for claim C8: "the invocation\x27s
combined output with the trailing newline trimmed" — remove one trailing
newline character, touching nothing else. -/
def trimTrailingNewline (s : String) : String :=
  match s.toList.reverse with
  | '\n' :: rest => String.mk rest.reverse
  | _ => s

/-! ## Helper lemmas about the select loop and the main pipeline -/

lemma waitForResult_result (cid : String) (events : List Event) :
    (waitForResult cid events).result = firstDone events := by
  induction events with
  | nil => rfl
  | cons e rest ih =>
    cases e with
    | signal s ctl => simpa [waitForResult, firstDone] using ih
    | waitDone w => rfl

lemma waitForResult_trace (cid : String) (events : List Event) :
    (waitForResult cid events).trace =
      (sigsBefore events).map (fun s => sigActionInv s cid) := by
  induction events with
  | nil => rfl
  | cons e rest ih =>
    cases e with
    | signal s ctl => simp [waitForResult, sigsBefore, ih]
    | waitDone w => rfl

lemma countInv_append (i : Invocation) (l m : List Invocation) :
    countInv i (l ++ m) = countInv i l + countInv i m := by
  induction l with
  | nil => simp [countInv]
  | cons j rest ih => simp [countInv, ih, Nat.add_assoc]

lemma countInv_sigMap (cid : String) (i : Invocation)
    (h : ∀ s : Sig, sigActionInv s cid ≠ i) (ss : List Sig) :
    countInv i (ss.map (fun s => sigActionInv s cid)) = 0 := by
  induction ss with
  | nil => rfl
  | cons s rest ih => simp [countInv, ih, h s]

lemma mainModel_reach (args : List String) (env : Env)
    (hv : (validateArgs args).1 = false)
    (hrun : env.runRes.err = none)
    (hlen : ¬ (goTrimNewlines env.runRes.output).length < 4) :
    mainModel args env =
      ⟨Invocation.run (dockerRunArgs args) ::
         (waitPhase (goTrimNewlines env.runRes.output) env).trace,
       (waitPhase (goTrimNewlines env.runRes.output) env).stdout,
       (waitPhase (goTrimNewlines env.runRes.output) env).outcome⟩ := by
  simp [mainModel, hv, hrun, hlen]

lemma waitPhase_trace_eq (cid : String) (env : Env) (r : CmdResult)
    (hdone : firstDone env.events = some r) :
    (waitPhase cid env).trace =
      Invocation.wait cid ::
        ((sigsBefore env.events).map (fun s => sigActionInv s cid) ++
          (if r.err.isSome then [Invocation.wait cid] else []) ++
          (match extractExitCode (resolveWait r env.fallbackWaitRes) with
           | none => []
           | some _ => [Invocation.logs cid, Invocation.rm cid])) := by
  simp only [waitPhase]
  rw [waitForResult_result, hdone]
  cases hc : ((resolveWait r env.fallbackWaitRes).2.isSome ||
      goContains (resolveWait r env.fallbackWaitRes).1 "Error") with
  | true =>
    simp [hc, extractExitCode, waitForResult_trace]
  | false =>
    cases ha : goAtoi (goTrimNewlines (resolveWait r env.fallbackWaitRes).1) with
    | none => simp [hc, ha, extractExitCode, waitForResult_trace]
    | some n => simp [hc, ha, extractExitCode, waitForResult_trace]

lemma waitPhase_outcome_eq (cid : String) (env : Env) (r : CmdResult)
    (hdone : firstDone env.events = some r) :
    (waitPhase cid env).outcome =
      (match extractExitCode (resolveWait r env.fallbackWaitRes) with
       | none => MainOutcome.exited 1
       | some n => MainOutcome.exited n) := by
  simp only [waitPhase]
  rw [waitForResult_result, hdone]
  cases hc : ((resolveWait r env.fallbackWaitRes).2.isSome ||
      goContains (resolveWait r env.fallbackWaitRes).1 "Error") with
  | true =>
    simp [hc, extractExitCode]
  | false =>
    cases ha : goAtoi (goTrimNewlines (resolveWait r env.fallbackWaitRes).1) with
    | none => simp [hc, ha, extractExitCode]
    | some n => simp [hc, ha, extractExitCode]

/-! ## Claims -/

/-- C3: in the select loop, every received termination signal triggers
exactly one stop/kill control invocation against the handle (interrupt
mapped to stop, kill mapped to kill): the issued control trace is exactly
the per-signal image of `sigActionInv`.  The loop's return value is the
first wait completion and nothing else, so it returns only when the wait
result channel yields an outcome; and since both equalities hold for every
event list — in particular whatever `cmdResult` each control invocation
produced — a failed stop/kill invocation never terminates the loop. -/
theorem c3_signal_relay_loop (cid : String) (events : List Event) :
    (waitForResult cid events).trace =
      (sigsBefore events).map (fun s => sigActionInv s cid) ∧
    (waitForResult cid events).result = firstDone events :=
  ⟨waitForResult_trace cid events, waitForResult_result cid events⟩

/-- C3 witness: a concrete loop run with one interrupt, one kill (whose
stop invocation reports an Error), and then completion. -/
theorem c3_signal_relay_loop_witness :
    (waitForResult "abcd"
        [Event.signal Sig.interrupt ⟨"", 0, none⟩,
         Event.signal Sig.kill ⟨"Error: no such container", 0, none⟩,
         Event.waitDone ⟨"0\n", 0, none⟩]).trace =
      (sigsBefore
          [Event.signal Sig.interrupt ⟨"", 0, none⟩,
           Event.signal Sig.kill ⟨"Error: no such container", 0, none⟩,
           Event.waitDone ⟨"0\n", 0, none⟩]).map
        (fun s => sigActionInv s "abcd") ∧
    (waitForResult "abcd"
        [Event.signal Sig.interrupt ⟨"", 0, none⟩,
         Event.signal Sig.kill ⟨"Error: no such container", 0, none⟩,
         Event.waitDone ⟨"0\n", 0, none⟩]).result =
      firstDone
        [Event.signal Sig.interrupt ⟨"", 0, none⟩,
         Event.signal Sig.kill ⟨"Error: no such container", 0, none⟩,
         Event.waitDone ⟨"0\n", 0, none⟩] :=
  c3_signal_relay_loop "abcd"
    [Event.signal Sig.interrupt ⟨"", 0, none⟩,
     Event.signal Sig.kill ⟨"Error: no such container", 0, none⟩,
     Event.waitDone ⟨"0\n", 0, none⟩]

/-- C10: `runCommandWithOutput` returns exit code 0 on success; when the
invocation fails with an error carrying an extractable process exit status
it returns that status; when no status can be extracted it returns the
sentinel 127.  In every case the output text and the original error pass
through unchanged. -/
theorem c10_run_command_exit_codes :
    (∀ out : String, runCommandWithOutput out none = (out, 0, none)) ∧
    (∀ (out : String) (s : Int),
      runCommandWithOutput out (some (GoError.exitError s)) =
        (out, s, some (GoError.exitError s))) ∧
    (∀ (out m : String),
      runCommandWithOutput out (some (GoError.other m)) =
        (out, 127, some (GoError.other m))) :=
  ⟨fun _ => rfl, fun _ _ => rfl, fun _ _ => rfl⟩

/-- C1: once the run reaches the wait phase, exactly two wait invocations
against the handle appear in the trace when the primary background wait's
outcome carries an error, and exactly one when it does not; and the
resolution step keeps the primary output/error when there is no error,
while on error it replaces them with the fallback wait's output and error,
discarding the first error. -/
theorem c1_wait_fallback (args : List String) (env : Env) (r : CmdResult)
    (hv : (validateArgs args).1 = false)
    (hrun : env.runRes.err = none)
    (hlen : ¬ (goTrimNewlines env.runRes.output).length < 4)
    (hdone : firstDone env.events = some r) :
    countInv (Invocation.wait (goTrimNewlines env.runRes.output))
        (mainModel args env).trace = (if r.err.isSome then 2 else 1) ∧
    resolveWait r env.fallbackWaitRes =
      (if r.err.isSome then (env.fallbackWaitRes.output, env.fallbackWaitRes.err)
       else (r.output, r.err)) := by
  constructor
  · rw [mainModel_reach args env hv hrun hlen]
    have htr := waitPhase_trace_eq (goTrimNewlines env.runRes.output) env r hdone
    have hmap : countInv (Invocation.wait (goTrimNewlines env.runRes.output))
        ((sigsBefore env.events).map
          (fun s => sigActionInv s (goTrimNewlines env.runRes.output))) = 0 :=
      countInv_sigMap _ _ (fun s => by cases s <;> simp [sigActionInv]) _
    cases herr : r.err.isSome with
    | true =>
      cases hex : extractExitCode (resolveWait r env.fallbackWaitRes) with
      | none => simp [htr, herr, hex, countInv, countInv_append, hmap]
      | some n => simp [htr, herr, hex, countInv, countInv_append, hmap]
    | false =>
      cases hex : extractExitCode (resolveWait r env.fallbackWaitRes) with
      | none => simp [htr, herr, hex, countInv, countInv_append, hmap]
      | some n => simp [htr, herr, hex, countInv, countInv_append, hmap]
  · cases herr : r.err.isSome with
    | true => simp [resolveWait, herr]
    | false => simp [resolveWait, herr]

/-- C1 witness: a run whose primary wait errors; the fallback wait
("137") is issued once more and its output is the one used. -/
theorem c1_wait_fallback_witness :
    countInv (Invocation.wait (goTrimNewlines "abcd\n"))
        (mainModel ["img"]
          ⟨⟨"abcd\n", 0, none⟩,
           [Event.waitDone ⟨"", 0, some "signal: interrupt"⟩],
           ⟨"137\n", 0, none⟩, ⟨"", 0, none⟩, ⟨"", 0, none⟩⟩).trace =
      (if (CmdResult.mk "" 0 (some "signal: interrupt")).err.isSome then 2 else 1) ∧
    resolveWait ⟨"", 0, some "signal: interrupt"⟩ ⟨"137\n", 0, none⟩ =
      (if (CmdResult.mk "" 0 (some "signal: interrupt")).err.isSome then
         ((CmdResult.mk "137\n" 0 none).output, (CmdResult.mk "137\n" 0 none).err)
       else ((CmdResult.mk "" 0 (some "signal: interrupt")).output,
             (CmdResult.mk "" 0 (some "signal: interrupt")).err)) :=
  c1_wait_fallback ["img"]
    ⟨⟨"abcd\n", 0, none⟩, [Event.waitDone ⟨"", 0, some "signal: interrupt"⟩],
     ⟨"137\n", 0, none⟩, ⟨"", 0, none⟩, ⟨"", 0, none⟩⟩
    ⟨"", 0, some "signal: interrupt"⟩
    (by decide) (by decide) (by decide) (by decide)

/-- C2: after fallback resolution, when the resolved wait outcome still
carries an error or its output text contains the error marker "Error", the
run exits with status 1; otherwise the output trimmed of newlines is
parsed as a base-10 integer, a parse failure also exits with status 1, and
on success the parsed integer is the final exit code. -/
theorem c2_exit_code_pipeline (args : List String) (env : Env) (r : CmdResult)
    (hv : (validateArgs args).1 = false)
    (hrun : env.runRes.err = none)
    (hlen : ¬ (goTrimNewlines env.runRes.output).length < 4)
    (hdone : firstDone env.events = some r) :
    (mainModel args env).outcome =
      (if (resolveWait r env.fallbackWaitRes).2.isSome ||
          goContains (resolveWait r env.fallbackWaitRes).1 "Error" then
         MainOutcome.exited 1
       else
         match goAtoi (goTrimNewlines (resolveWait r env.fallbackWaitRes).1) with
         | none => MainOutcome.exited 1
         | some n => MainOutcome.exited n) := by
  rw [mainModel_reach args env hv hrun hlen]
  have hout := waitPhase_outcome_eq (goTrimNewlines env.runRes.output) env r hdone
  cases hc : ((resolveWait r env.fallbackWaitRes).2.isSome ||
      goContains (resolveWait r env.fallbackWaitRes).1 "Error") with
  | true => simp [hout, extractExitCode, hc]
  | false =>
    cases ha : goAtoi (goTrimNewlines (resolveWait r env.fallbackWaitRes).1) with
    | none => simp [hout, extractExitCode, hc, ha]
    | some n => simp [hout, extractExitCode, hc, ha]

/-- C2 witness: a run whose wait output is the non-numeric "abc" exits
with status 1. -/
theorem c2_exit_code_pipeline_witness :
    (mainModel ["img"]
        ⟨⟨"abcd\n", 0, none⟩, [Event.waitDone ⟨"abc\n", 0, none⟩],
         ⟨"", 0, none⟩, ⟨"", 0, none⟩, ⟨"", 0, none⟩⟩).outcome =
      (if (resolveWait ⟨"abc\n", 0, none⟩ ⟨"", 0, none⟩).2.isSome ||
          goContains (resolveWait ⟨"abc\n", 0, none⟩ ⟨"", 0, none⟩).1 "Error" then
         MainOutcome.exited 1
       else
         match goAtoi (goTrimNewlines (resolveWait ⟨"abc\n", 0, none⟩ ⟨"", 0, none⟩).1) with
         | none => MainOutcome.exited 1
         | some n => MainOutcome.exited n) :=
  c2_exit_code_pipeline ["img"]
    ⟨⟨"abcd\n", 0, none⟩, [Event.waitDone ⟨"abc\n", 0, none⟩],
     ⟨"", 0, none⟩, ⟨"", 0, none⟩, ⟨"", 0, none⟩⟩
    ⟨"abc\n", 0, none⟩ (by decide) (by decide) (by decide) (by decide)

/-- C4 counterexample: a run in which `docker wait` reports "300" with no
error exits with status 300, which is neither 1 nor an integer in
[0,255]: the code performs no range check on the parsed exit code. -/
theorem c4_exit_range_counterexample :
    (mainModel ["img"]
        ⟨⟨"abcd\n", 0, none⟩, [Event.waitDone ⟨"300\n", 0, none⟩],
         ⟨"", 0, none⟩, ⟨"", 0, none⟩, ⟨"", 0, none⟩⟩).outcome =
      MainOutcome.exited 300 ∧
    ¬ ((300 : Int) = 1 ∨ ((0 : Int) ≤ 300 ∧ (300 : Int) ≤ 255)) := by
  constructor
  · decide
  · decide

/-- C4 as amended: for every run in which the wait operation completes,
the process exit status is either 1 (for any validation, launch, wait, or
parse failure) or exactly the integer parsed from the wait operation's
output — the workload's own exit code as reported, with no [0,255] range
check applied to it. -/
theorem c4_exit_status_amended (args : List String) (env : Env) (r : CmdResult)
    (hdone : firstDone env.events = some r) :
    (mainModel args env).outcome = MainOutcome.exited 1 ∨
    (∃ n : Int,
      goAtoi (goTrimNewlines (resolveWait r env.fallbackWaitRes).1) = some n ∧
      (mainModel args env).outcome = MainOutcome.exited n) := by
  cases hv : (validateArgs args).1 with
  | true => exact Or.inl (by simp [mainModel, hv])
  | false =>
    cases hrun : env.runRes.err with
    | some e => exact Or.inl (by simp [mainModel, hv, hrun])
    | none =>
      by_cases hlen : (goTrimNewlines env.runRes.output).length < 4
      · exact Or.inl (by simp [mainModel, hv, hrun, hlen])
      · rw [mainModel_reach args env hv hrun hlen]
        have hout := waitPhase_outcome_eq (goTrimNewlines env.runRes.output) env r hdone
        cases hc : ((resolveWait r env.fallbackWaitRes).2.isSome ||
            goContains (resolveWait r env.fallbackWaitRes).1 "Error") with
        | true => exact Or.inl (by simp [hout, extractExitCode, hc])
        | false =>
          cases ha : goAtoi (goTrimNewlines (resolveWait r env.fallbackWaitRes).1) with
          | none => exact Or.inl (by simp [hout, extractExitCode, hc, ha])
          | some n =>
            exact Or.inr ⟨n, rfl, by simp [hout, extractExitCode, hc, ha]⟩

/-- C4 amended witness: the "300" run again; the amended claim places the
outcome in the second disjunct with n = 300. -/
theorem c4_exit_status_amended_witness :
    (mainModel ["img"]
        ⟨⟨"abcd\n", 0, none⟩, [Event.waitDone ⟨"300\n", 0, none⟩],
         ⟨"", 0, none⟩, ⟨"", 0, none⟩, ⟨"", 0, none⟩⟩).outcome =
      MainOutcome.exited 1 ∨
    (∃ n : Int,
      goAtoi (goTrimNewlines
        (resolveWait ⟨"300\n", 0, none⟩ ⟨"", 0, none⟩).1) = some n ∧
      (mainModel ["img"]
          ⟨⟨"abcd\n", 0, none⟩, [Event.waitDone ⟨"300\n", 0, none⟩],
           ⟨"", 0, none⟩, ⟨"", 0, none⟩, ⟨"", 0, none⟩⟩).outcome =
        MainOutcome.exited n) :=
  c4_exit_status_amended ["img"]
    ⟨⟨"abcd\n", 0, none⟩, [Event.waitDone ⟨"300\n", 0, none⟩],
     ⟨"", 0, none⟩, ⟨"", 0, none⟩, ⟨"", 0, none⟩⟩
    ⟨"300\n", 0, none⟩ (by decide)

/-- C5 (code defect): a run whose logs retrieval succeeds (no error, no
"No such container" marker) with output "%d\n" does NOT print that text
verbatim: the source passes the logs text to `fmt.Printf` as its format
string, so the verb `%d` — having no argument — is rendered as
`%!d(MISSING)`.  The only line this run writes to standard output is
"%!d(MISSING)\n", which differs from the logs output. -/
theorem c5_logs_not_verbatim :
    (CmdResult.mk "%d\n" 0 none).err = none ∧
    goContains (CmdResult.mk "%d\n" 0 none).output "No such container" = false ∧
    (mainModel ["img"]
        ⟨⟨"abcd\n", 0, none⟩, [Event.waitDone ⟨"0\n", 0, none⟩],
         ⟨"", 0, none⟩, ⟨"%d\n", 0, none⟩, ⟨"", 0, none⟩⟩).stdout =
      ["%!d(MISSING)\n"] ∧
    "%!d(MISSING)\n" ≠ "%d\n" := by
  refine ⟨rfl, by decide, by decide, by decide⟩

/-- C6: once a final exit code n has been extracted from the wait output,
the logs and remove invocations are still both issued — remove after
logs — and the run still exits with n, whatever results the logs and remove
invocations return (in particular when either fails). -/
theorem c6_cleanup_frame (args : List String) (env : Env) (r : CmdResult) (n : Int)
    (hv : (validateArgs args).1 = false)
    (hrun : env.runRes.err = none)
    (hlen : ¬ (goTrimNewlines env.runRes.output).length < 4)
    (hdone : firstDone env.events = some r)
    (hex : extractExitCode (resolveWait r env.fallbackWaitRes) = some n) :
    ∀ logsR rmR : CmdResult,
      (mainModel args
          (Env.mk env.runRes env.events env.fallbackWaitRes logsR rmR)).outcome =
        MainOutcome.exited n ∧
      ∃ pre,
        (mainModel args
            (Env.mk env.runRes env.events env.fallbackWaitRes logsR rmR)).trace =
          pre ++ [Invocation.logs (goTrimNewlines env.runRes.output),
                  Invocation.rm (goTrimNewlines env.runRes.output)] := by
  intro logsR rmR
  have hreach := mainModel_reach args
    (Env.mk env.runRes env.events env.fallbackWaitRes logsR rmR) hv hrun hlen
  have hout := waitPhase_outcome_eq (goTrimNewlines env.runRes.output)
    (Env.mk env.runRes env.events env.fallbackWaitRes logsR rmR) r hdone
  have htr := waitPhase_trace_eq (goTrimNewlines env.runRes.output)
    (Env.mk env.runRes env.events env.fallbackWaitRes logsR rmR) r hdone
  constructor
  · rw [hreach]
    simp [hout, hex]
  · refine ⟨Invocation.run (dockerRunArgs args) ::
      Invocation.wait (goTrimNewlines env.runRes.output) ::
        ((sigsBefore env.events).map
            (fun s => sigActionInv s (goTrimNewlines env.runRes.output)) ++
          (if r.err.isSome then
             [Invocation.wait (goTrimNewlines env.runRes.output)] else [])), ?_⟩
    rw [hreach]
    simp [htr, hex]

/-- C6 witness: a run exiting 5 whose logs invocation reports
"No such container" and whose remove invocation reports an Error still
issues remove after logs and still exits 5. -/
theorem c6_cleanup_frame_witness :
    (mainModel ["img"]
        (Env.mk ⟨"abcd\n", 0, none⟩ [Event.waitDone ⟨"5\n", 0, none⟩]
          ⟨"", 0, none⟩ ⟨"No such container: abcd\n", 0, none⟩
          ⟨"Error: rm failed\n", 0, none⟩)).outcome =
      MainOutcome.exited 5 ∧
    ∃ pre,
      (mainModel ["img"]
          (Env.mk ⟨"abcd\n", 0, none⟩ [Event.waitDone ⟨"5\n", 0, none⟩]
            ⟨"", 0, none⟩ ⟨"No such container: abcd\n", 0, none⟩
            ⟨"Error: rm failed\n", 0, none⟩)).trace =
        pre ++ [Invocation.logs (goTrimNewlines "abcd\n"),
                Invocation.rm (goTrimNewlines "abcd\n")] :=
  c6_cleanup_frame ["img"]
    ⟨⟨"abcd\n", 0, none⟩, [Event.waitDone ⟨"5\n", 0, none⟩],
     ⟨"", 0, none⟩, ⟨"x", 0, none⟩, ⟨"y", 0, none⟩⟩
    ⟨"5\n", 0, none⟩ 5 (by decide) (by decide) (by decide) (by decide) (by decide)
    ⟨"No such container: abcd\n", 0, none⟩ ⟨"Error: rm failed\n", 0, none⟩

/-- C7: when the wait operation returns output "0" with no error, the
final exit code is 0, and the logs and remove invocations are each issued
exactly once, both against the same handle. -/
theorem c7_zero_exit_happy_path (args : List String) (env : Env) (r : CmdResult)
    (hv : (validateArgs args).1 = false)
    (hrun : env.runRes.err = none)
    (hlen : ¬ (goTrimNewlines env.runRes.output).length < 4)
    (hdone : firstDone env.events = some r)
    (hout : r.output = "0")
    (herr : r.err = none) :
    (mainModel args env).outcome = MainOutcome.exited 0 ∧
    countInv (Invocation.logs (goTrimNewlines env.runRes.output))
        (mainModel args env).trace = 1 ∧
    countInv (Invocation.rm (goTrimNewlines env.runRes.output))
        (mainModel args env).trace = 1 := by
  have hres : resolveWait r env.fallbackWaitRes = ("0", none) := by
    simp [resolveWait, herr, hout]
  have hex : extractExitCode (resolveWait r env.fallbackWaitRes) = some 0 := by
    rw [hres]; decide
  have hreach := mainModel_reach args env hv hrun hlen
  have houtc := waitPhase_outcome_eq (goTrimNewlines env.runRes.output) env r hdone
  have htr := waitPhase_trace_eq (goTrimNewlines env.runRes.output) env r hdone
  refine ⟨?_, ?_, ?_⟩
  · rw [hreach]; simp [houtc, hex]
  · rw [hreach]
    have hmap : countInv (Invocation.logs (goTrimNewlines env.runRes.output))
        ((sigsBefore env.events).map
          (fun s => sigActionInv s (goTrimNewlines env.runRes.output))) = 0 :=
      countInv_sigMap _ _ (fun s => by cases s <;> simp [sigActionInv]) _
    simp [htr, hex, herr, countInv, countInv_append, hmap]
  · rw [hreach]
    have hmap : countInv (Invocation.rm (goTrimNewlines env.runRes.output))
        ((sigsBefore env.events).map
          (fun s => sigActionInv s (goTrimNewlines env.runRes.output))) = 0 :=
      countInv_sigMap _ _ (fun s => by cases s <;> simp [sigActionInv]) _
    simp [htr, hex, herr, countInv, countInv_append, hmap]

/-- C7 witness: a run (with one interrupt relayed along the way) whose
wait reports "0": exit code 0, one logs invocation, one remove
invocation. -/
theorem c7_zero_exit_happy_path_witness :
    (mainModel ["img"]
        ⟨⟨"abcd\n", 0, none⟩,
         [Event.signal Sig.interrupt ⟨"", 0, none⟩, Event.waitDone ⟨"0", 0, none⟩],
         ⟨"", 0, none⟩, ⟨"log\n", 0, none⟩, ⟨"abcd\n", 0, none⟩⟩).outcome =
      MainOutcome.exited 0 ∧
    countInv (Invocation.logs (goTrimNewlines "abcd\n"))
        (mainModel ["img"]
          ⟨⟨"abcd\n", 0, none⟩,
           [Event.signal Sig.interrupt ⟨"", 0, none⟩, Event.waitDone ⟨"0", 0, none⟩],
           ⟨"", 0, none⟩, ⟨"log\n", 0, none⟩, ⟨"abcd\n", 0, none⟩⟩).trace = 1 ∧
    countInv (Invocation.rm (goTrimNewlines "abcd\n"))
        (mainModel ["img"]
          ⟨⟨"abcd\n", 0, none⟩,
           [Event.signal Sig.interrupt ⟨"", 0, none⟩, Event.waitDone ⟨"0", 0, none⟩],
           ⟨"", 0, none⟩, ⟨"log\n", 0, none⟩, ⟨"abcd\n", 0, none⟩⟩).trace = 1 :=
  c7_zero_exit_happy_path ["img"]
    ⟨⟨"abcd\n", 0, none⟩,
     [Event.signal Sig.interrupt ⟨"", 0, none⟩, Event.waitDone ⟨"0", 0, none⟩],
     ⟨"", 0, none⟩, ⟨"log\n", 0, none⟩, ⟨"abcd\n", 0, none⟩⟩
    ⟨"0", 0, none⟩ (by decide) (by decide) (by decide) (by decide) rfl rfl

lemma mem_waitPhase_invId (cid : String) (env : Env) (r : CmdResult)
    (hdone : firstDone env.events = some r) :
    ∀ i ∈ (waitPhase cid env).trace, invId i = some cid := by
  intro i hi
  rw [waitPhase_trace_eq cid env r hdone] at hi
  rcases List.mem_cons.mp hi with h | hi
  · rw [h]; rfl
  rcases List.mem_append.mp hi with hi | hi
  · rcases List.mem_append.mp hi with hi | hi
    · rcases List.mem_map.mp hi with ⟨s, _, hs⟩
      cases s
      · rw [← hs]; rfl
      · rw [← hs]; rfl
    · by_cases herr : r.err.isSome = true
      · rw [if_pos herr] at hi
        rw [List.mem_singleton.mp hi]; rfl
      · rw [if_neg herr] at hi
        exact absurd hi (List.not_mem_nil i)
  · cases hex : extractExitCode (resolveWait r env.fallbackWaitRes) with
    | none =>
      rw [hex] at hi
      exact absurd hi (List.not_mem_nil i)
    | some n =>
      rw [hex] at hi
      rcases List.mem_cons.mp hi with h | hi
      · rw [h]; rfl
      · rw [List.mem_singleton.mp hi]; rfl

/-- C8 counterexample: when create-and-start outputs "\nabcd" (a leading
newline, no trailing one; 4 characters after the code\x27s trim), the spec
value "combined output with the trailing newline trimmed" is "\nabcd"
itself, but the code — which trims newlines from BOTH ends — uses "abcd"
as the handle for every subsequent invocation. -/
theorem c8_trailing_trim_counterexample :
    (mainModel ["img"]
        ⟨⟨"\nabcd", 0, none⟩, [Event.waitDone ⟨"0", 0, none⟩],
         ⟨"", 0, none⟩, ⟨"", 0, none⟩, ⟨"", 0, none⟩⟩).trace =
      [Invocation.run ["run", "-d", "img"], Invocation.wait "abcd",
       Invocation.logs "abcd", Invocation.rm "abcd"] ∧
    trimTrailingNewline "\nabcd" = "\nabcd" ∧
    ("abcd" : String) ≠ "\nabcd" :=
  ⟨by decide, by decide, by decide⟩

/-- C8 as amended: for every successful create-and-start invocation whose
output has length at least 4 after trimming, the Workload Handle equals
the combined output with all leading and trailing newline characters
trimmed (Go strings.Trim with cutset "\n", not only a trailing newline),
and every subsequent runtime invocation in the trace targets exactly that
handle (only the launch invocation carries no handle). -/
theorem c8_handle_amended (args : List String) (env : Env) (r : CmdResult)
    (hv : (validateArgs args).1 = false)
    (hrun : env.runRes.err = none)
    (hlen : ¬ (goTrimNewlines env.runRes.output).length < 4)
    (hdone : firstDone env.events = some r) :
    ∀ i ∈ (mainModel args env).trace,
      invId i = none ∨ invId i = some (goTrimNewlines env.runRes.output) := by
  intro i hi
  rw [mainModel_reach args env hv hrun hlen] at hi
  have hi2 : i ∈ Invocation.run (dockerRunArgs args) ::
      (waitPhase (goTrimNewlines env.runRes.output) env).trace := hi
  rcases List.mem_cons.mp hi2 with h | hmem
  · exact Or.inl (by rw [h]; rfl)
  · exact Or.inr
      (mem_waitPhase_invId (goTrimNewlines env.runRes.output) env r hdone i hmem)

/-- C8 amended witness: in the "\nabcd" run, the traced wait invocation
targets the both-ends-trimmed handle. -/
theorem c8_handle_amended_witness :
    invId (Invocation.wait "abcd") = none ∨
    invId (Invocation.wait "abcd") = some (goTrimNewlines "\nabcd") :=
  c8_handle_amended ["img"]
    ⟨⟨"\nabcd", 0, none⟩, [Event.waitDone ⟨"0", 0, none⟩],
     ⟨"", 0, none⟩, ⟨"", 0, none⟩, ⟨"", 0, none⟩⟩
    ⟨"0", 0, none⟩ (by decide) (by decide) (by decide) (by decide)
    (Invocation.wait "abcd") (by decide)

/-- C9: for every argument vector that is empty or contains the flag "-i"
or the flag "-a", the run exits with status 1 after printing at least one
usage/error line, and issues no external invocation at all. -/
theorem c9_arg_validation (args : List String) (env : Env)
    (h : args = [] ∨ "-i" ∈ args ∨ "-a" ∈ args) :
    (mainModel args env).trace = [] ∧
    (mainModel args env).outcome = MainOutcome.exited 1 ∧
    (mainModel args env).stdout ≠ [] := by
  have hfail : (validateArgs args).1 = true := by
    rcases h with h | h | h
    · rw [h]; rfl
    · have ha : args.any (fun v => v == "-i") = true :=
        List.any_eq_true.mpr ⟨"-i", h, by simp⟩
      simp [validateArgs, ha]
    · have ha : args.any (fun v => v == "-a") = true :=
        List.any_eq_true.mpr ⟨"-a", h, by simp⟩
      simp [validateArgs, ha]
  have hmsg : (validateArgs args).2 ≠ [] := by
    rcases h with h | h | h
    · rw [h]; decide
    · have hm : "ERROR: dockrun doesn\x27t support -i\n" ∈ (validateArgs args).2 := by
        simp only [validateArgs]
        refine List.mem_append.mpr (Or.inr ?_)
        refine List.mem_flatten.mpr
          ⟨flagMsgs "-i", List.mem_map.mpr ⟨"-i", h, rfl⟩, ?_⟩
        simp [flagMsgs]
      exact List.ne_nil_of_mem hm
    · have hm : "ERROR: dockrun doesn\x27t support -a" ∈ (validateArgs args).2 := by
        simp only [validateArgs]
        refine List.mem_append.mpr (Or.inr ?_)
        refine List.mem_flatten.mpr
          ⟨flagMsgs "-a", List.mem_map.mpr ⟨"-a", h, rfl⟩, ?_⟩
        simp [flagMsgs]
      exact List.ne_nil_of_mem hm
  refine ⟨by simp [mainModel, hfail], by simp [mainModel, hfail], ?_⟩
  simpa [mainModel, hfail] using hmsg

/-- C9 witness: the argument vector ["-i", "img"] is rejected with exit
status 1, a printed error, and an empty invocation trace. -/
theorem c9_arg_validation_witness :
    (mainModel ["-i", "img"]
        ⟨⟨"", 0, none⟩, [], ⟨"", 0, none⟩, ⟨"", 0, none⟩, ⟨"", 0, none⟩⟩).trace = [] ∧
    (mainModel ["-i", "img"]
        ⟨⟨"", 0, none⟩, [], ⟨"", 0, none⟩, ⟨"", 0, none⟩, ⟨"", 0, none⟩⟩).outcome =
      MainOutcome.exited 1 ∧
    (mainModel ["-i", "img"]
        ⟨⟨"", 0, none⟩, [], ⟨"", 0, none⟩, ⟨"", 0, none⟩, ⟨"", 0, none⟩⟩).stdout ≠ [] :=
  c9_arg_validation ["-i", "img"]
    ⟨⟨"", 0, none⟩, [], ⟨"", 0, none⟩, ⟨"", 0, none⟩, ⟨"", 0, none⟩⟩
    (Or.inr (Or.inl (by decide)))
